import Mathlib

/-!
Shallow embedding of `src/main.py` (geolonia/cleanup-s3), the bucket-draining
engine: `batched`, `filter_buckets`, `empty_bucket`, `delete_bucket`,
`worker`, and the result-collection / summary / exit-code logic of `main`.

Provider calls (S3 object listing, batched object deletion, bucket deletion)
are modelled as explicit oracles; `time.sleep` durations are recorded as
rational numbers so the backoff curve is observable.
-/

namespace CleanupS3

abbrev Key := String

/-- One step of the `list_objects_v2` pagination consumed by
`for page in pages`: either a page of keys (the `Contents` entries) or a
`ClientError` raised while fetching that page. -/
inductive ListOutcome where
  | page (keys : List Key)
  | err (code : String)
deriving Repr, DecidableEq

/-- Outcome of one `delete_objects` call: a normal response carrying the
`Deleted` entries and the `Errors` keys, or a raised `ClientError` with its
error code.  The drain runs the delete call in quiet mode, under which the
provider omits `Deleted` entries for successfully deleted keys. -/
inductive DeleteResp where
  | ok (deletedKeys : List Key) (errorKeys : List Key)
  | clientError (code : String)
deriving Repr

/-- Observable effects of a drain: the running `total_deleted` counter, the
payload of every `delete_objects` call in order, and the sleeps performed. -/
structure DrainState where
  totalDeleted : Nat
  callLog : List (List Key)
  sleeps : List ℚ
deriving Repr, DecidableEq

def initState : DrainState := ⟨0, [], []⟩

/-- The dict returned by `empty_bucket`:
`{"bucket": ..., "deleted": ..., "status": ...}`. -/
structure PyResult where
  bucket : String
  deleted : Nat
  status : String
deriving Repr, DecidableEq

/-- Exceptions that can escape `empty_bucket`: the `RuntimeError` raised when
the retry budget for a batch is exhausted, and a `ClientError` raised by the
listing paginator (which `empty_bucket` does not catch). -/
inductive DrainErr where
  | retriesExhausted (bucket : String)
  | listingError (code : String)
deriving Repr, DecidableEq

/-- `batched(iterable, n)` from `src/main.py`: accumulate items into `batch`,
yield as soon as `len(batch) >= n`, and yield any non-empty leftover at the
end.  `n` is an arbitrary integer, as in Python. -/
def batchedAux {α : Type} (n : ℤ) : List α → List α → List (List α)
  | batch, [] => if batch.isEmpty then [] else [batch]
  | batch, x :: xs =>
    let b := batch ++ [x]
    if n ≤ (b.length : ℤ) then b :: batchedAux n [] xs
    else batchedAux n b xs

def batched {α : Type} (l : List α) (n : ℤ) : List (List α) :=
  batchedAux n [] l

/-- Python's `nm.startswith(p)`, modelled on the character list (Lean's
built-in `String.startsWith` does not reduce in the kernel). -/
def pyStartsWith (nm p : String) : Bool :=
  p.data.isPrefixOf nm.data

/-- `filter_buckets(names, include_prefix, exclude_regex)` from `src/main.py`.
`search rx nm` stands for `re.compile(rx).search(nm) is not None`; the `re`
engine is an external collaborator, so it is an oracle parameter.  Python
truthiness makes an empty-string option a no-op, hence the `= ""` guards. -/
def filter_buckets (search : String → String → Bool) (names : List String)
    ( include_prefix : Option String) (exclude_regex : Option String) :
    List String :=
  let out1 :=
    match include_prefix with
    | some p => if p = "" then names else names.filter (fun nm => pyStartsWith nm p)
    | none => names
  match exclude_regex with
  | some rx => if rx = "" then out1 else out1.filter (fun nm => !(search rx nm))
  | none => out1

/-- Result of the retry loop over one delete batch. -/
inductive BatchOutcome where
  | done (st : DrainState)
  | goneReturn (st : DrainState)
  | exhausted (st : DrainState)
deriving Repr, DecidableEq

/-- The `for attempt in range(max_delete_retries)` loop over one batch in
`empty_bucket`.  `rem` is the number of attempts left, `attempt` the Python
loop index; the oracle `resp` is indexed by the number of delete calls made
so far.  A response with per-key errors narrows the batch to the failed keys
and sleeps `min(2 ** attempt * 0.25, 4.0)`; a `ClientError` other than
`NoSuchBucket` sleeps `min(2 ** attempt * 0.5, 4.0)` and retries the same
batch; `NoSuchBucket` returns from the whole drain; loop exhaustion falls
through to the `else: raise RuntimeError` clause. -/
def attemptLoop (resp : ℕ → DeleteResp) :
    ℕ → ℕ → List Key → DrainState → BatchOutcome
  | 0, _, _, st => .exhausted st
  | rem + 1, attempt, batch, st =>
    match resp st.callLog.length with
    | .clientError code =>
      let st1 : DrainState := ⟨st.totalDeleted, st.callLog ++ [batch], st.sleeps⟩
      if code = "NoSuchBucket" then .goneReturn st1
      else
        attemptLoop resp rem (attempt + 1) batch
          ⟨st1.totalDeleted, st1.callLog,
            st1.sleeps ++ [min (2 ^ attempt * (1 / 2 : ℚ)) 4]⟩
    | .ok deletedKeys errorKeys =>
      let st1 : DrainState :=
        ⟨st.totalDeleted + deletedKeys.length, st.callLog ++ [batch], st.sleeps⟩
      if errorKeys.isEmpty then .done st1
      else
        attemptLoop resp rem (attempt + 1) errorKeys
          ⟨st1.totalDeleted, st1.callLog,
            st1.sleeps ++ [min (2 ^ attempt * (1 / 4 : ℚ)) 4]⟩

/-- The `for batch in batched(keys, batch_size)` loop of `empty_bucket`. -/
def processBatches (resp : ℕ → DeleteResp) (maxRetries : ℕ) :
    List (List Key) → DrainState → BatchOutcome
  | [], st => .done st
  | b :: bs, st =>
    match attemptLoop resp maxRetries 0 b st with
    | .done st1 => processBatches resp maxRetries bs st1
    | .goneReturn st1 => .goneReturn st1
    | .exhausted st1 => .exhausted st1

/-- The `for page in pages` loop of `empty_bucket`.  An empty `Contents`
list is skipped (`continue`); a `ClientError` raised by the paginator is not
caught anywhere in `empty_bucket`, so it propagates. -/
def drainPages (resp : ℕ → DeleteResp) (bucket : String) (batchSize : ℤ)
    (maxRetries : ℕ) :
    List ListOutcome → DrainState → Except DrainErr PyResult × DrainState
  | [], st => (.ok ⟨bucket, st.totalDeleted, "emptied"⟩, st)
  | .err code :: _, st => (.error (.listingError code), st)
  | .page keys :: rest, st =>
    if keys.isEmpty then drainPages resp bucket batchSize maxRetries rest st
    else
      match processBatches resp maxRetries (batched keys batchSize) st with
      | .done st1 => drainPages resp bucket batchSize maxRetries rest st1
      | .goneReturn st1 => (.ok ⟨bucket, st1.totalDeleted, "gone"⟩, st1)
      | .exhausted st1 => (.error (.retriesExhausted bucket), st1)

/-- `empty_bucket(s3_client, bucket, batch_size, max_delete_retries)` from
`src/main.py`.  `pages` is the pagination oracle and `resp` the
`delete_objects` oracle.  Returns the Python result (or the escaping
exception) together with the final observable state. -/
def empty_bucket (pages : List ListOutcome) (resp : ℕ → DeleteResp)
    (bucket : String) (batch_size : ℤ) (max_delete_retries : ℕ) :
    Except DrainErr PyResult × DrainState :=
  drainPages resp bucket batch_size max_delete_retries pages initState

/-- Outcome of one `delete_bucket` provider call. -/
inductive BDResp where
  | success
  | err (code : String)
deriving Repr, DecidableEq

/-- Result of the `for i in range(retries)` loop of `delete_bucket`,
carrying the sleeps performed so far. -/
inductive BDLoopOut where
  | deleted (sleeps : List ℚ)
  | gone (sleeps : List ℚ)
  | exhausted (sleeps : List ℚ)
deriving Repr, DecidableEq

/-- The retry loop of `delete_bucket`: up to `rem` more attempts, `i` the
Python loop index.  Success returns "deleted"; a `NoSuchBucket` error
returns "gone"; any other `ClientError` sleeps `min(2 ** i * 0.5, 5.0)` and
retries. -/
def bdLoop (attempts : ℕ → BDResp) : ℕ → ℕ → List ℚ → BDLoopOut
  | 0, _, sl => .exhausted sl
  | rem + 1, i, sl =>
    match attempts i with
    | .success => .deleted sl
    | .err code =>
      if code = "NoSuchBucket" then .gone sl
      else bdLoop attempts rem (i + 1) (sl ++ [min (2 ^ i * (1 / 2 : ℚ)) 5])

/-- `delete_bucket(s3_client, bucket, retries)` from `src/main.py`.
`attempts` is the oracle for the in-loop `delete_bucket` calls.  When the
loop is exhausted the fallback pass runs: `empty_bucket(s3_client, bucket)`
(with the Python defaults 1000 and 5, against the fallback oracles
`fbPages` / `fbResp`), then one more `delete_bucket` call (`fbDelete`);
any exception in that `try` block — including a `NoSuchBucket` error from
the final delete call — yields "failed". -/
def delete_bucket (attempts : ℕ → BDResp) (retries : ℕ) (bucket : String)
    (fbPages : List ListOutcome) (fbResp : ℕ → DeleteResp)
    (fbDelete : BDResp) : String × List ℚ :=
  match bdLoop attempts retries 0 [] with
  | .deleted sl => ("deleted", sl)
  | .gone sl => ("gone", sl)
  | .exhausted sl =>
    match empty_bucket fbPages fbResp bucket 1000 5 with
    | (.error _, st) => ("failed", sl ++ st.sleeps)
    | (.ok _, st) =>
      match fbDelete with
      | .success => ("deleted", sl ++ st.sleeps)
      | .err _ => ("failed", sl ++ st.sleeps)

/-- The summary dict produced by `worker`: the `empty_bucket` result plus
the `final` field. -/
structure WorkerSummary where
  bucket : String
  deleted : Nat
  status : String
  final : String
deriving Repr, DecidableEq

/-- `worker(session, bucket, batch_size, do_delete_bucket)` from
`src/main.py`: drain the bucket (`max_delete_retries` defaults to 5); when
`do_delete_bucket` is set, `final` is `delete_bucket(s3, bucket)` (retries
default 5), otherwise `final = "emptied"`.  An exception raised by
`empty_bucket` propagates out of the worker. -/
def worker (pages : List ListOutcome) (resp : ℕ → DeleteResp)
    (bucket : String) (batch_size : ℤ) (do_delete_bucket : Bool)
    (bdAttempts : ℕ → BDResp) (fbPages : List ListOutcome)
    (fbResp : ℕ → DeleteResp) (fbDelete : BDResp) :
    Except DrainErr WorkerSummary :=
  match empty_bucket pages resp bucket batch_size 5 with
  | (.error e, _) => .error e
  | (.ok r, _) =>
    let fin :=
      if do_delete_bucket then
        (delete_bucket bdAttempts 5 bucket fbPages fbResp fbDelete).1
      else "emptied"
    .ok ⟨r.bucket, r.deleted, r.status, fin⟩

/-- What `fut.result()` delivers for one bucket's task in `main`: the worker
summary, or the exception the task raised. -/
inductive TaskOutcome where
  | ok (s : WorkerSummary)
  | exc (msg : String)
deriving Repr, DecidableEq

/-- The `results` list built by the `as_completed` loop in `main`:
`results.append(res)` runs only in the non-exception branch.  `completed`
lists the (bucket, outcome) pairs in completion order. -/
def resultsOf (completed : List (String × TaskOutcome)) : List WorkerSummary :=
  completed.filterMap fun p =>
    match p.2 with
    | .ok s => some s
    | .exc _ => none

/-- The buckets for which `main` prints `[b] ERROR: ...` to stderr (the
exception branch of the `as_completed` loop). -/
def errorLinesOf (completed : List (String × TaskOutcome)) : List String :=
  completed.filterMap fun p =>
    match p.2 with
    | .ok _ => none
    | .exc _ => some p.1

/-- `r.get("final") in ("deleted", "gone")` from `main`. -/
def isRunSuccess (fin : String) : Bool :=
  fin == "deleted" || fin == "gone"

/-- The `ok` list of `main`. -/
def okOf (completed : List (String × TaskOutcome)) : List WorkerSummary :=
  (resultsOf completed).filter fun r => isRunSuccess r.final

/-- The `ng` list of `main`. -/
def ngOf (completed : List (String × TaskOutcome)) : List WorkerSummary :=
  (resultsOf completed).filter fun r => !(isRunSuccess r.final)

/-- The "failed buckets" block of the summary: bucket name and final status
for each `ng` entry. -/
def failedSummary (completed : List (String × TaskOutcome)) :
    List (String × String) :=
  (ngOf completed).map fun r => (r.bucket, r.final)

/-- The exit code of `main`: 1 when no targets matched, 0 on dry run,
otherwise `0 if not ng else 2`. -/
def exitCode (targets : List String) (dryRun : Bool)
    (completed : List (String × TaskOutcome)) : ℕ :=
  if targets.isEmpty then 1
  else if dryRun then 0
  else if (ngOf completed).isEmpty then 0
  else 2

/-- A delete response that neither lets the batch fully succeed nor reports
`NoSuchBucket`: a normal response with a non-empty `Errors` list (per-key
failures, narrowing the batch), or a `ClientError` with any other code
(transient error, batch retried unchanged). -/
def failingResp : DeleteResp → Prop
  | .ok _ errorKeys => errorKeys ≠ []
  | .clientError code => code ≠ "NoSuchBucket"

/-- The 1000 object keys of the narrowing scenario. -/
def keys1000 : List Key := (List.range 1000).map fun i => "k" ++ toString i

/-- Quiet-mode provider for the narrowing scenario: the first delete call
reports per-key errors for `k3` and `k77`; the second call fully succeeds.
In quiet mode the provider omits `Deleted` entries for successfully deleted
keys, so both responses carry an empty `Deleted` list. -/
def c3resp : ℕ → DeleteResp := fun i =>
  if i = 0 then .ok [] ["k3", "k77"] else .ok [] []

theorem batchedAux_join {α : Type} (n : ℤ) (l : List α) :
    ∀ batch : List α, (batchedAux n batch l).flatten = batch ++ l := by
  induction l with
  | nil =>
    intro batch
    by_cases h : batch = []
    · subst h; simp [batchedAux]
    · simp [batchedAux, h]
  | cons x xs ih =>
    intro batch
    simp only [batchedAux]
    split
    · simp [ih]
    · simp [ih]

theorem batched_join {α : Type} (l : List α) (n : ℤ) : (batched l n).flatten = l := by
  simpa using batchedAux_join n l []

theorem batched_ne_nil {α : Type} {l : List α} (h : l ≠ []) (n : ℤ) :
    batched l n ≠ [] := by
  intro hb
  apply h
  have hj := batched_join l n
  rw [hb] at hj
  simpa using hj.symm

theorem batchedAux_eq_single {α : Type} (n : ℤ) :
    ∀ (l batch : List α), batch ++ l ≠ [] → ((batch.length : ℤ) + l.length) ≤ n →
      batchedAux n batch l = [batch ++ l] := by
  intro l
  induction l with
  | nil =>
    intro batch hne _
    have h : batch ≠ [] := by simpa using hne
    simp [batchedAux, h]
  | cons x xs ih =>
    intro batch hne hlen
    simp only [batchedAux]
    split
    · rename_i hyield
      have hxs : xs = [] := by
        rw [List.length_append] at hyield
        simp at hyield hlen
        have hlen0 : xs.length = 0 := by omega
        exact List.length_eq_zero.mp hlen0
      subst hxs
      simp [batchedAux]
    · rename_i hno
      rw [ih (batch ++ [x]) (by simp) (by simp at hlen ⊢; omega)]
      simp

theorem batched_eq_single {α : Type} {l : List α} (h : l ≠ []) {n : ℤ}
    (hlen : (l.length : ℤ) ≤ n) : batched l n = [l] := by
  simpa using batchedAux_eq_single n l [] (by simpa using h) (by simpa using hlen)

theorem batchedAux_sizes {α : Type} {n : ℤ} (hn : 0 < n) :
    ∀ (l batch : List α), (batch.length : ℤ) < n →
      ∀ g ∈ batchedAux n batch l, (g.length : ℤ) ≤ n := by
  intro l
  induction l with
  | nil =>
    intro batch hb g hg
    by_cases h : batch = []
    · simp [batchedAux, h] at hg
    · simp [batchedAux, h] at hg
      subst hg
      omega
  | cons x xs ih =>
    intro batch hb g hg
    simp only [batchedAux] at hg
    split at hg
    · rename_i hyield
      rcases List.mem_cons.mp hg with hg | hg
      · subst hg
        simp at hyield ⊢
        omega
      · exact ih [] (by simpa using hn) g hg
    · rename_i hno
      refine ih (batch ++ [x]) ?_ g hg
      simp at hno ⊢
      omega

theorem batchedAux_dropLast {α : Type} {n : ℤ} (hn : 0 < n) :
    ∀ (l batch : List α), (batch.length : ℤ) < n →
      ∀ g ∈ (batchedAux n batch l).dropLast, (g.length : ℤ) = n := by
  intro l
  induction l with
  | nil =>
    intro batch hb g hg
    by_cases h : batch = []
    · simp [batchedAux, h] at hg
    · simp [batchedAux, h] at hg
  | cons x xs ih =>
    intro batch hb g hg
    simp only [batchedAux] at hg
    split at hg
    · rename_i hyield
      have hlen : ((batch ++ [x]).length : ℤ) = n := by
        simp at hyield ⊢
        omega
      cases htail : batchedAux n [] xs with
      | nil => rw [htail] at hg; simp at hg
      | cons c cs =>
        rw [htail] at hg
        have : ((batch ++ [x]) :: c :: cs).dropLast = (batch ++ [x]) :: (c :: cs).dropLast := rfl
        rw [this] at hg
        rcases List.mem_cons.mp hg with hg | hg
        · subst hg; exact hlen
        · refine ih [] (by simpa using hn) g ?_
          rw [htail]
          exact hg
    · rename_i hno
      refine ih (batch ++ [x]) ?_ g hg
      simp at hno ⊢
      omega

theorem batchedAux_length {α : Type} {n : ℤ} (hn : 0 < n) :
    ∀ (l batch : List α), (batch.length : ℤ) < n →
      (batchedAux n batch l).length
        = (batch.length + l.length + (n.toNat - 1)) / n.toNat := by
  have hm : 0 < n.toNat := by omega
  intro l
  induction l with
  | nil =>
    intro batch hb
    by_cases h : batch = []
    · subst h
      simp [batchedAux]
      rw [Nat.div_eq_of_lt (by omega)]
    · have h1 : batch ≠ [] := h
      have hpos : 0 < batch.length := List.length_pos.mpr h1
      have hlt : batch.length < n.toNat := by omega
      simp [batchedAux, h]
      exact (Nat.div_eq_of_lt_le (by omega) (by omega)).symm
  | cons x xs ih =>
    intro batch hb
    simp only [batchedAux]
    split
    · rename_i hyield
      have hlen : batch.length + 1 = n.toNat := by
        simp at hyield
        omega
      have := ih [] (by simpa using hn)
      simp only [List.length_cons, this]
      have harith : batch.length + (xs.length + 1) + (n.toNat - 1)
          = ([] : List α).length + xs.length + (n.toNat - 1) + n.toNat := by
        simp
        omega
      rw [harith, Nat.add_div_right _ hm]
    · rename_i hno
      have hlt : ((batch ++ [x]).length : ℤ) < n := by
        simp at hno ⊢
        omega
      rw [ih (batch ++ [x]) hlt]
      congr 1
      simp
      omega

theorem attemptLoop_all_failing (resp : ℕ → DeleteResp)
    (hfail : ∀ i, failingResp (resp i)) :
    ∀ (rem attempt : ℕ) (batch : List Key) (st : DrainState),
      ∃ st', attemptLoop resp rem attempt batch st = .exhausted st' := by
  intro rem
  induction rem with
  | zero => exact fun attempt batch st => ⟨st, rfl⟩
  | succ r ih =>
    intro attempt batch st
    simp only [attemptLoop]
    cases hr : resp st.callLog.length with
    | clientError code =>
      have hc : code ≠ "NoSuchBucket" := by
        have h := hfail st.callLog.length
        rw [hr] at h
        exact h
      simp only [hc, if_false]
      exact ih _ _ _
    | ok dk ek =>
      have hc : ek ≠ [] := by
        have h := hfail st.callLog.length
        rw [hr] at h
        exact h
      have he : ek.isEmpty = false := by simp [List.isEmpty_iff, hc]
      simp only [he, Bool.false_eq_true, if_false]
      exact ih _ _ _

/-- Claim C5: when every `delete_objects` attempt fails (per-key errors —
including the narrowed-retry path — or a non-`NoSuchBucket` client error),
the whole retry budget is consumed and the drain raises the
`RuntimeError` for this bucket instead of returning a result. -/
theorem drain_retry_exhaustion_raises (resp : ℕ → DeleteResp)
    (hfail : ∀ i, failingResp (resp i)) (bucket : String) (keys : List Key)
    (hk : keys ≠ []) (rest : List ListOutcome) (bs : ℤ) (mr : ℕ) :
    (empty_bucket (.page keys :: rest) resp bucket bs mr).1
      = .error (.retriesExhausted bucket) := by
  obtain ⟨b0, bs', hb⟩ := List.exists_cons_of_ne_nil (batched_ne_nil hk bs)
  have hke : keys.isEmpty = false := by
    simp [List.isEmpty_iff, hk]
  unfold empty_bucket drainPages
  rw [hke, hb]
  obtain ⟨st', hst⟩ := attemptLoop_all_failing resp hfail mr 0 b0 initState
  simp [processBatches, hst]

/-- Claim C5 witness: one key, every attempt reports it in `Errors`. -/
theorem drain_retry_exhaustion_raises_witness :
    (empty_bucket [.page ["a"]] (fun _ => .ok [] ["a"]) "b" 1000 5).1
      = .error (.retriesExhausted "b") :=
  drain_retry_exhaustion_raises (fun _ => .ok [] ["a"])
    (fun _ => List.cons_ne_nil "a" []) "b" ["a"] (List.cons_ne_nil "a" [])
    [] 1000 5

theorem bdLoop_gone (attempts : ℕ → BDResp) :
    ∀ (i rem idx : ℕ) (sl : List ℚ), i < rem →
      attempts (idx + i) = .err "NoSuchBucket" →
      (∀ j, j < i → attempts (idx + j) ≠ .success) →
      ∃ sl', bdLoop attempts rem idx sl = .gone sl' := by
  intro i
  induction i with
  | zero =>
    intro rem idx sl hrem hi _
    obtain ⟨r, rfl⟩ : ∃ r, rem = r + 1 := ⟨rem - 1, by omega⟩
    rw [Nat.add_zero] at hi
    simp only [bdLoop]
    rw [hi]
    simp
  | succ k ih =>
    intro rem idx sl hrem hi hns
    obtain ⟨r, rfl⟩ : ∃ r, rem = r + 1 := ⟨rem - 1, by omega⟩
    simp only [bdLoop]
    cases h0 : attempts idx with
    | success =>
      have := hns 0 (by omega)
      rw [Nat.add_zero] at this
      exact absurd h0 this
    | err code =>
      by_cases hc : code = "NoSuchBucket"
      · subst hc
        exact ⟨sl, by simp⟩
      · simp only [hc, if_false]
        refine ih r (idx + 1) _ (by omega) ?_ ?_
        · rw [show idx + 1 + k = idx + (k + 1) from by omega]
          exact hi
        · intro j hj
          rw [show idx + 1 + j = idx + (j + 1) from by omega]
          exact hns (j + 1) (by omega)

theorem bdLoop_exhausted (attempts : ℕ → BDResp) :
    ∀ (rem idx : ℕ) (sl : List ℚ),
      (∀ j, j < rem → ∃ c, c ≠ "NoSuchBucket" ∧ attempts (idx + j) = .err c) →
      bdLoop attempts rem idx sl
        = .exhausted
            (sl ++ (List.range rem).map fun t => min (2 ^ (idx + t) * (1 / 2 : ℚ)) 5) := by
  intro rem
  induction rem with
  | zero =>
    intro idx sl _
    simp [bdLoop]
  | succ r ih =>
    intro idx sl hfail
    obtain ⟨c, hc, h0⟩ := hfail 0 (by omega)
    rw [Nat.add_zero] at h0
    simp only [bdLoop]
    rw [h0]
    simp only [hc, if_false]
    rw [ih (idx + 1) _ (fun j hj => by
      rw [show idx + 1 + j = idx + (j + 1) from by omega]
      exact hfail (j + 1) (by omega))]
    congr 1
    rw [List.append_assoc]
    congr 1
    rw [List.range_succ_eq_map, List.map_cons, List.map_map, List.singleton_append]
    congr 1
    simp only [List.map_inj_left, Function.comp_apply]
    intro a ha
    rw [show idx + 1 + a = idx + (a + 1) from by omega]

/-- Claim C7: for every finite input and batch size n ≥ 1, `batched` yields
exactly ceil(L/n) groups, their in-order concatenation is the input, every
group has size at most n, all groups except possibly the last have size
exactly n, and empty input yields no groups. -/
theorem batched_groups_spec {α : Type} (l : List α) (n : ℤ) (hn : 1 ≤ n) :
    (batched l n).length = (l.length + (n.toNat - 1)) / n.toNat ∧
    (batched l n).flatten = l ∧
    (∀ g ∈ batched l n, (g.length : ℤ) ≤ n) ∧
    (∀ g ∈ (batched l n).dropLast, g.length = n.toNat) ∧
    batched ([] : List α) n = [] := by
  have hn0 : (0 : ℤ) < n := by omega
  refine ⟨?_, batched_join l n, ?_, ?_, rfl⟩
  · have := batchedAux_length hn0 l [] (by simpa using hn0)
    simpa [batched] using this
  · intro g hg
    exact batchedAux_sizes hn0 l [] (by simpa using hn0) g hg
  · intro g hg
    have h := batchedAux_dropLast hn0 l [] (by simpa using hn0) g hg
    omega

/-- Claim C7 witness at `l = ["a","b","c"]`, `n = 2`. -/
theorem batched_groups_spec_witness :
    (batched ["a", "b", "c"] 2).length = 2 ∧
    (batched ["a", "b", "c"] 2).flatten = ["a", "b", "c"] :=
  ⟨(batched_groups_spec ["a", "b", "c"] 2 (by decide)).1,
   (batched_groups_spec ["a", "b", "c"] 2 (by decide)).2.1⟩

/-- Claim C9: for batch size n ≤ 0 (outside the spec's precondition) the
Python condition `len(batch) >= n` holds after every append, so `batched`
terminates and yields one singleton group per input item, in order. -/
theorem batched_nonpositive_singletons {α : Type} (l : List α) (n : ℤ)
    (hn : n ≤ 0) : batched l n = l.map (fun x => [x]) := by
  unfold batched
  induction l with
  | nil => simp [batchedAux]
  | cons x xs ih =>
    simp only [batchedAux, List.nil_append]
    rw [if_pos (by simp; omega)]
    simp [ih]

/-- Claim C9 witness at `l = ["a","b"]`, `n = -3`. -/
theorem batched_nonpositive_singletons_witness :
    batched ["a", "b"] (-3) = [["a"], ["b"]] :=
  batched_nonpositive_singletons ["a", "b"] (-3) (by decide)

/-- Claim C1 (evaluating the code at the failing input): with
`--delete-bucket` not set, a bucket whose drain completes gets
`final = "emptied"`, but `main` treats only `final ∈ {"deleted", "gone"}`
as success: the bucket lands in `ng`, the success list is empty, the bucket
is listed in the failed-buckets block, and the process exits with code 2 —
the claim expects a run-level success and exit code 0. -/
theorem keptBucket_final_emptied_counted_failed :
    worker [.page ["x"]] (fun _ => .ok [] []) "b" 1000 false
        (fun _ => .success) [] (fun _ => .ok [] []) .success
      = .ok ⟨"b", 0, "emptied", "emptied"⟩ ∧
    okOf [("b", .ok ⟨"b", 0, "emptied", "emptied"⟩)] = [] ∧
    ngOf [("b", .ok ⟨"b", 0, "emptied", "emptied"⟩)]
      = [⟨"b", 0, "emptied", "emptied"⟩] ∧
    failedSummary [("b", .ok ⟨"b", 0, "emptied", "emptied"⟩)]
      = [("b", "emptied")] ∧
    exitCode ["b"] false [("b", .ok ⟨"b", 0, "emptied", "emptied"⟩)] = 2 := by
  refine ⟨rfl, rfl, rfl, rfl, rfl⟩

/-- Claim C2 (counterexample): a task that raises is only echoed to stderr;
nothing is appended to `results`, the failed-buckets block of the summary
is empty, and the exit code is 0, not 2. -/
theorem raised_task_absent_from_summary_cex :
    resultsOf [("b1", .exc "Failed to delete some objects in b1 after retries.")]
      = [] ∧
    ngOf [("b1", .exc "Failed to delete some objects in b1 after retries.")]
      = [] ∧
    failedSummary [("b1", .exc "Failed to delete some objects in b1 after retries.")]
      = [] ∧
    errorLinesOf [("b1", .exc "Failed to delete some objects in b1 after retries.")]
      = ["b1"] ∧
    exitCode ["b1"] false
        [("b1", .exc "Failed to delete some objects in b1 after retries.")]
      = 0 := by
  refine ⟨rfl, rfl, rfl, rfl, rfl⟩

/-- Claim C2 (amended): a completed task that raised contributes exactly one
stderr error line keyed by its bucket and nothing else: the collected
results, the `ng` list, the failed-buckets block and the exit code are the
same as if the raised task had never completed. -/
theorem raised_task_only_echoes (c : List (String × TaskOutcome))
    (b msg : String) (targets : List String) (dryRun : Bool) :
    resultsOf (c ++ [(b, .exc msg)]) = resultsOf c ∧
    ngOf (c ++ [(b, .exc msg)]) = ngOf c ∧
    failedSummary (c ++ [(b, .exc msg)]) = failedSummary c ∧
    exitCode targets dryRun (c ++ [(b, .exc msg)]) = exitCode targets dryRun c ∧
    errorLinesOf (c ++ [(b, .exc msg)]) = errorLinesOf c ++ [b] := by
  have h1 : resultsOf (c ++ [(b, .exc msg)]) = resultsOf c := by
    simp [resultsOf, List.filterMap_append]
  refine ⟨h1, ?_, ?_, ?_, ?_⟩
  · simp [ngOf, h1]
  · simp [failedSummary, ngOf, h1]
  · simp [exitCode, ngOf, h1]
  · simp [errorLinesOf, List.filterMap_append]

/-- Claim C4 (counterexample): when the provider reports `NoSuchBucket` on
the first listing call, `empty_bucket` raises that `ClientError` (the
`except` clause only guards `delete_objects`): the drain does not return a
`gone` result, and no delete call is issued. -/
theorem listing_notfound_raises_cex :
    (empty_bucket [.err "NoSuchBucket"] (fun _ => .ok [] []) "b" 1000 5).1
      = .error (.listingError "NoSuchBucket") ∧
    (empty_bucket [.err "NoSuchBucket"] (fun _ => .ok [] []) "b" 1000 5).1
      ≠ .ok ⟨"b", 0, "gone"⟩ ∧
    (empty_bucket [.err "NoSuchBucket"] (fun _ => .ok [] []) "b" 1000 5).2.callLog
      = [] := by
  exact ⟨rfl, fun h => Except.noConfusion h, rfl⟩

/-- Claim C4 (amended): a `ClientError` raised by the object-listing
paginator propagates out of the drain unchanged — whatever its code — with
no delete calls issued; the `gone` result arises only when `NoSuchBucket`
is reported by a `delete_objects` call, as in the second conjunct. -/
theorem listing_notfound_propagates (code : String) (rest : List ListOutcome)
    (resp : ℕ → DeleteResp) (bucket : String) (bs : ℤ) (mr : ℕ)
    (keys : List Key) (hk : keys ≠ []) (hmr : 0 < mr)
    (hresp : resp 0 = .clientError "NoSuchBucket") :
    ((empty_bucket (.err code :: rest) resp bucket bs mr).1
        = .error (.listingError code) ∧
     (empty_bucket (.err code :: rest) resp bucket bs mr).2.callLog = []) ∧
    (empty_bucket (.page keys :: rest) resp bucket bs mr).1
      = .ok ⟨bucket, 0, "gone"⟩ := by
  refine ⟨⟨rfl, rfl⟩, ?_⟩
  obtain ⟨b0, bs', hb⟩ := List.exists_cons_of_ne_nil (batched_ne_nil hk bs)
  obtain ⟨m, rfl⟩ : ∃ m, mr = m + 1 := ⟨mr - 1, by omega⟩
  have hke : keys.isEmpty = false := by
    simp [List.isEmpty_iff, hk]
  unfold empty_bucket drainPages
  rw [hke, hb]
  simp only [Bool.false_eq_true, if_false, processBatches, attemptLoop, initState,
    List.length_nil, hresp]
  rfl

/-- Claim C4 amended witness: concrete run of the second conjunct. -/
theorem listing_notfound_propagates_witness :
    (empty_bucket [.page ["x"], .err "Boom"] (fun _ => .clientError "NoSuchBucket")
        "b" 1000 5).1 = .ok ⟨"b", 0, "gone"⟩ :=
  (listing_notfound_propagates "Boom" [.err "Boom"]
      (fun _ => .clientError "NoSuchBucket") "b" 1000 5 ["x"]
      (by decide) (by decide) rfl).2

/-- Claim C6: `delete_bucket` always returns one of the three status values
(no error propagates out of it).  A `NoSuchBucket` error at any loop
attempt not preceded by a success returns "gone".  When all `retries` loop
attempts fail with non-`NoSuchBucket` errors, the recorded backoff sleeps
are exactly `min(2 ** i * 0.5, 5.0)` for `i < retries`, and the result is
decided by the single fallback pass: "deleted" when the re-drain returns
and the final delete call succeeds, "failed" when the re-drain raises or
the final delete call fails for any reason. -/
theorem delete_bucket_remove_spec (attempts : ℕ → BDResp) (retries : ℕ)
    (bucket : String) (fbPages : List ListOutcome) (fbResp : ℕ → DeleteResp)
    (fbDelete : BDResp) :
    ((delete_bucket attempts retries bucket fbPages fbResp fbDelete).1 = "deleted" ∨
     (delete_bucket attempts retries bucket fbPages fbResp fbDelete).1 = "gone" ∨
     (delete_bucket attempts retries bucket fbPages fbResp fbDelete).1 = "failed") ∧
    (∀ i, i < retries → attempts i = .err "NoSuchBucket" →
      (∀ j, j < i → attempts j ≠ .success) →
      (delete_bucket attempts retries bucket fbPages fbResp fbDelete).1 = "gone") ∧
    ((∀ j, j < retries → ∃ c, c ≠ "NoSuchBucket" ∧ attempts j = .err c) →
      bdLoop attempts retries 0 []
          = .exhausted ((List.range retries).map fun i => min (2 ^ i * (1 / 2 : ℚ)) 5) ∧
      (delete_bucket attempts retries bucket fbPages fbResp fbDelete).1
        = (match (empty_bucket fbPages fbResp bucket 1000 5).1, fbDelete with
           | .error _, _ => "failed"
           | .ok _, .success => "deleted"
           | .ok _, .err _ => "failed")) := by
  refine ⟨?_, ?_, ?_⟩
  · unfold delete_bucket
    cases hbd : bdLoop attempts retries 0 [] with
    | deleted sl => simp
    | gone sl => simp
    | exhausted sl =>
      rcases he : empty_bucket fbPages fbResp bucket 1000 5 with ⟨fst, snd⟩
      cases fst with
      | error e => simp
      | ok r => cases fbDelete <;> simp
  · intro i hi hnsb hns
    obtain ⟨sl', h⟩ := bdLoop_gone attempts i retries 0 [] hi (by simpa using hnsb)
      (by simpa using hns)
    unfold delete_bucket
    rw [h]
  · intro hfail
    have h := bdLoop_exhausted attempts retries 0 []
      (fun j hj => by simpa using hfail j hj)
    constructor
    · rw [h]
      simp
    · unfold delete_bucket
      rw [h]
      rcases he : empty_bucket fbPages fbResp bucket 1000 5 with ⟨fst, snd⟩
      cases fst with
      | error e => simp
      | ok r => cases fbDelete <;> simp

/-- Claim C6 witness: a first-attempt `NoSuchBucket` gives "gone"; two
exhausted attempts followed by a failing fallback delete give "failed". -/
theorem delete_bucket_remove_spec_witness :
    (delete_bucket (fun _ => .err "NoSuchBucket") 1 "b" []
        (fun _ => .ok [] []) .success).1 = "gone" ∧
    (delete_bucket (fun _ => .err "SlowDown") 2 "b" []
        (fun _ => .ok [] []) (.err "BucketNotEmpty")).1 = "failed" := by
  constructor
  · exact (delete_bucket_remove_spec (fun _ => .err "NoSuchBucket") 1 "b" []
      (fun _ => .ok [] []) .success).2.1 0 (by omega) rfl
      (fun j hj => absurd hj (by omega))
  · exact ((delete_bucket_remove_spec (fun _ => .err "SlowDown") 2 "b" []
      (fun _ => .ok [] []) (.err "BucketNotEmpty")).2.2
      (fun j hj => ⟨"SlowDown", by decide, rfl⟩)).2

/-- Claim C10: a `NoSuchBucket` error raised by the delete-bucket call of
the fallback pass is caught by the bare `except Exception` clause, so
`delete_bucket` returns "failed", not "gone": the not-found-to-Gone
conversion happens only inside the initial retry loop. -/
theorem fallback_notfound_returns_failed (attempts : ℕ → BDResp)
    (retries : ℕ) (bucket : String) (fbResp : ℕ → DeleteResp)
    (hfail : ∀ j, j < retries → ∃ c, c ≠ "NoSuchBucket" ∧ attempts j = .err c) :
    (delete_bucket attempts retries bucket [] fbResp (.err "NoSuchBucket")).1
      = "failed" := by
  have h := bdLoop_exhausted attempts retries 0 []
    (fun j hj => by simpa using hfail j hj)
  unfold delete_bucket
  rw [h]
  rfl

/-- Claim C10 witness: loop attempts all fail with `BucketNotEmpty`, the
fallback delete reports `NoSuchBucket`. -/
theorem fallback_notfound_returns_failed_witness :
    (delete_bucket (fun _ => .err "BucketNotEmpty") 5 "b" []
        (fun _ => .ok [] []) (.err "NoSuchBucket")).1 = "failed" :=
  fallback_notfound_returns_failed (fun _ => .err "BucketNotEmpty") 5 "b"
    (fun _ => .ok [] []) (fun j hj => ⟨"BucketNotEmpty", by decide, rfl⟩)

/-- Claim C3 (evaluating the code at the scenario): with a batch of 1000
keys whose first quiet-mode delete call fails exactly `k3` and `k77` and
whose second call succeeds, the drain makes exactly 2 delete calls — the
second narrowed to the two failed keys — but the returned `deleted` count
is 0, not 1000: `total_deleted` adds `len(resp.get("Deleted", []))`, which
quiet mode keeps empty. -/
theorem quiet_partial_failure_two_calls_zero_count :
    (empty_bucket [.page keys1000] c3resp "b" 1000 5).1
      = .ok ⟨"b", 0, "emptied"⟩ ∧
    (empty_bucket [.page keys1000] c3resp "b" 1000 5).2.callLog
      = [keys1000, ["k3", "k77"]] := by
  have hlen : keys1000.length = 1000 := by simp [keys1000]
  have hne : keys1000 ≠ [] := by
    intro h
    rw [h] at hlen
    simp at hlen
  have hb : batched keys1000 1000 = [keys1000] :=
    batched_eq_single hne (by rw [hlen]; norm_num)
  have hke : keys1000.isEmpty = false := by simp [List.isEmpty_iff, hne]
  have hpb : processBatches c3resp 5 (batched keys1000 1000) initState
      = .done ⟨0, [keys1000, ["k3", "k77"]], [min (2 ^ 0 * (1 / 4 : ℚ)) 4]⟩ := by
    rw [hb]
    rfl
  constructor
  · unfold empty_bucket drainPages
    rw [hke]
    simp only [Bool.false_eq_true, if_false, hpb]
    rfl
  · unfold empty_bucket drainPages
    rw [hke]
    simp only [Bool.false_eq_true, if_false, hpb]
    rfl

/-- Claim C8: with both filters given (non-empty, per Python truthiness),
`filter_buckets` applies prefix inclusion first, then regex exclusion
(dropping names where the search oracle finds a match); the output is an
order-preserving selection of the input (a sublist); it is a pure function
of its arguments, so determinism and non-mutation hold by construction.
The third conjunct is the composition instance of the spec: any regex
engine consistent with "2$" on the prefix survivors yields `["a1"]`. -/
theorem filter_buckets_spec (search : String → String → Bool)
    (names : List String) (p rx : String) (hp : p ≠ "") (hr : rx ≠ "") :
    filter_buckets search names (some p) (some rx)
        = (names.filter fun nm => pyStartsWith nm p).filter
            (fun nm => !(search rx nm)) ∧
    (filter_buckets search names (some p) (some rx)).Sublist names ∧
    (search rx "a1" = false → search rx "a2" = true →
      filter_buckets search ["a1", "a2", "b1"] (some "a") (some rx)
        = ["a1"]) := by
  have hcomp : ∀ ns : List String, filter_buckets search ns (some p) (some rx)
      = (ns.filter fun nm => pyStartsWith nm p).filter
          (fun nm => !(search rx nm)) := by
    intro ns
    simp [filter_buckets, hp, hr]
  refine ⟨hcomp names, ?_, ?_⟩
  · rw [hcomp names]
    exact (List.filter_sublist _).trans (List.filter_sublist _)
  · intro h1 h2
    have hstep : filter_buckets search ["a1", "a2", "b1"] (some "a") (some rx)
        = (["a1", "a2", "b1"].filter fun nm => pyStartsWith nm "a").filter
            (fun nm => !(search rx nm)) := by
      simp only [filter_buckets]
      rw [if_neg (by decide : ¬("a" : String) = ""), if_neg hr]
    rw [hstep]
    rw [show (["a1", "a2", "b1"].filter fun nm => pyStartsWith nm "a")
        = ["a1", "a2"] from by decide]
    simp [List.filter_cons, h1, h2]

/-- Claim C8 witness: a concrete regex engine for "2$" (match iff the name
ends in "2") on the spec's example. -/
theorem filter_buckets_spec_witness :
    filter_buckets (fun _ nm => "2".data.isSuffixOf nm.data)
        ["a1", "a2", "b1"] (some "a") (some "2$") = ["a1"] :=
  (filter_buckets_spec (fun _ nm => "2".data.isSuffixOf nm.data)
      ["a1", "a2", "b1"] "a" "2$" (by decide) (by decide)).2.2
    (by decide) (by decide)

end CleanupS3
